import Mathlib

/-!
Shallow embedding of `src/granola-api.ts` (twanlass/granola-mcp).

The TypeScript source is modelled as follows:
* JavaScript runtime values that flow through untyped positions
  (`attrs: Record<string, unknown>`, JSON documents) are modelled by `JSVal`
  (numbers as integers; JSON arrays are omitted as no code path consumes them).
* Fallible code (`throw` / `try ... catch`) is modelled with `Except` / `Option`.
* The network fetch and `JSON.parse` are impure inputs; the pure remainder of
  each method takes their results as explicit arguments.
-/

namespace Granola

/-- A JavaScript runtime value, covering the shapes that reach the untyped
positions of the source (`attrs.level`, parsed JSON).  Numbers are modelled as
integers (`NaN` and fractional values are outside the model); JSON arrays are
omitted because no modelled code path consumes one. -/
inductive JSVal where
  | vNull
  | vBool (b : Bool)
  | vNum (n : Int)
  | vStr (s : String)
  | vObj (fields : List (String × JSVal))

/-- JavaScript truthiness for `JSVal` (`null`, `false`, `0`, `""` are falsy;
objects are always truthy). -/
def jsTruthy : JSVal → Bool
  | .vNull => false
  | .vBool b => b
  | .vNum n => n != 0
  | .vStr s => s != ""
  | .vObj _ => true

/-- Truthiness of a possibly-absent value (`undefined` is falsy). -/
def jsTruthyOpt : Option JSVal → Bool
  | none => false
  | some v => jsTruthy v

/-- Decimal digit test (`0`–`9`). -/
def isDigitCh (c : Char) : Bool := 48 ≤ c.toNat && c.toNat ≤ 57

/-- Value of a list of decimal digit characters. -/
def digitsVal (l : List Char) : Nat :=
  l.foldl (fun acc c => acc * 10 + (c.toNat - 48)) 0

/-- Decimal rendering of a natural number, digit by digit (fuel-driven; the
fuel `n + 1` always suffices).  Models JavaScript number-to-string conversion
for the natural numbers produced by `i + 1` in the source. -/
def natToChars : Nat → Nat → List Char
  | 0, _ => []
  | fuel + 1, n =>
    if n < 10 then [Char.ofNat (48 + n)]
    else natToChars fuel (n / 10) ++ [Char.ofNat (48 + n % 10)]

/-- String form of a natural number (JS `${n}` for a nonnegative integer). -/
def natToString (n : Nat) : String := String.mk (natToChars (n + 1) n)

/-- The ECMAScript `WhiteSpace` and `LineTerminator` code points (tab, LF,
VT, FF, CR, space, NBSP, Ogham space, the U+2000–U+200A spaces, LS, PS,
narrow no-break space, mathematical space, ideographic space, BOM), as
trimmed by `String.prototype.trim` and by `ToNumber` on strings. -/
def isWsCh (c : Char) : Bool :=
  (9 ≤ c.toNat && c.toNat ≤ 13) || c.toNat = 32 || c.toNat = 160 ||
    c.toNat = 5760 || (8192 ≤ c.toNat && c.toNat ≤ 8202) ||
    c.toNat = 8232 || c.toNat = 8233 || c.toNat = 8239 || c.toNat = 8287 ||
    c.toNat = 12288 || c.toNat = 65279

/-- `String.prototype.trim`: strip whitespace from both ends. -/
def jsTrim (s : String) : String :=
  String.mk (((s.data.dropWhile isWsCh).reverse.dropWhile isWsCh).reverse)

/-- `ToIntegerOrInfinity (ToNumber v)` as `String.prototype.repeat` receives
it: a truncated integer, or one of the infinities (which `repeat` rejects). -/
inductive RepeatCount where
  | fin (n : Int)
  | posInf
  | negInf
deriving DecidableEq

/-- The exact value of a `StringNumericLiteral`: not-a-number, a signed
infinity, or a signed decimal `± mant · 10 ^ scale`. -/
inductive DecNum where
  | nan
  | inf (neg : Bool)
  | dec (neg : Bool) (mant : Nat) (scale : Int)

/-- Digit value in radix up to 16 (`0`–`9`, `a`–`f`, `A`–`F`). -/
def radixDigitVal (c : Char) : Option Nat :=
  if 48 ≤ c.toNat ∧ c.toNat ≤ 57 then some (c.toNat - 48)
  else if 97 ≤ c.toNat ∧ c.toNat ≤ 102 then some (c.toNat - 87)
  else if 65 ≤ c.toNat ∧ c.toNat ≤ 70 then some (c.toNat - 55)
  else none

/-- Value of a digit string in the given radix; `none` on any invalid
digit. -/
def radixVal (radix : Nat) (l : List Char) : Option Nat :=
  l.foldl (fun acc c =>
    match acc, radixDigitVal c with
    | some a, some d => if d < radix then some (a * radix + d) else none
    | _, _ => none) (some 0)

/-- A `NonDecimalIntegerLiteral` body (after `0x`/`0o`/`0b`): nonempty
digits in the radix, else `NaN`. -/
def parseRadix (radix : Nat) (l : List Char) : DecNum :=
  if l = [] then .nan
  else
    match radixVal radix l with
    | some v => .dec false v 0
    | none => .nan

/-- An `ExponentPart` that must consume the whole remaining input: empty
input means exponent `0`; otherwise `e`/`E`, an optional sign, and a
nonempty digit run; anything else is not numeric. -/
def parseExp : List Char → Option Int
  | [] => some 0
  | c :: rest =>
    if c = 'e' ∨ c = 'E' then
      match rest with
      | '+' :: ds =>
        if ds ≠ [] ∧ ds.all isDigitCh then some (digitsVal ds) else none
      | '-' :: ds =>
        if ds ≠ [] ∧ ds.all isDigitCh then some (-(digitsVal ds : Int)) else none
      | ds =>
        if ds ≠ [] ∧ ds.all isDigitCh then some (digitsVal ds) else none
    else none

/-- `StrUnsignedDecimalLiteral` without the `Infinity` form:
`digits [. digits] [exp]` or `. digits [exp]`, consuming the whole input;
the result is `(mantissa digits, decimal scale)`. -/
def parseUnsignedDec (l : List Char) : Option (Nat × Int) :=
  let ip := l.takeWhile isDigitCh
  match l.dropWhile isDigitCh with
  | '.' :: rest2 =>
    let fp := rest2.takeWhile isDigitCh
    if ip = [] ∧ fp = [] then none
    else
      (parseExp (rest2.dropWhile isDigitCh)).map
        (fun e => (digitsVal (ip ++ fp), e - (fp.length : Int)))
  | rest1 =>
    if ip = [] then none
    else (parseExp rest1).map (fun e => (digitsVal ip, e))

/-- The optional sign of a `StrDecimalLiteral`. -/
def stripSign : List Char → (Bool × List Char)
  | '+' :: r => (false, r)
  | '-' :: r => (true, r)
  | r => (false, r)

/-- A signed decimal literal: optional sign, then `Infinity` or an unsigned
decimal. -/
def parseSignedDec (l : List Char) : DecNum :=
  let sb := stripSign l
  if sb.2 = "Infinity".data then .inf sb.1
  else
    match parseUnsignedDec sb.2 with
    | some me => .dec sb.1 me.1 me.2
    | none => .nan

/-- `StrNumericLiteral` on an already-trimmed character list: empty input is
`+0`; `0x`/`0o`/`0b` literals (which admit no sign) use their radix; all
other input is a signed decimal literal or `NaN`. -/
def parseStrNumeric (l : List Char) : DecNum :=
  match l with
  | [] => .dec false 0 0
  | '0' :: c :: rest =>
    if c = 'x' ∨ c = 'X' then parseRadix 16 rest
    else if c = 'o' ∨ c = 'O' then parseRadix 8 rest
    else if c = 'b' ∨ c = 'B' then parseRadix 2 rest
    else parseSignedDec l
  | _ => parseSignedDec l

/-- The smallest magnitude at which binary64 rounding overflows to
infinity: `2 ^ 1024 - 2 ^ 970`, the midpoint above the largest finite
double (written with exponents of at most 256 so that it evaluates
cheaply). -/
def overflowThreshold : Nat :=
  2 ^ 256 * 2 ^ 256 * 2 ^ 256 * 2 ^ 256 - 2 ^ 256 * 2 ^ 256 * 2 ^ 256 * 2 ^ 202

/-- `ToIntegerOrInfinity` of the exact decimal value: `NaN` becomes `0`,
magnitudes at or above the binary64 overflow midpoint become the signed
infinity, and finite values truncate toward zero (so `-0.4` is `0`, not
negative).  The decimal is evaluated exactly; binary64 significand rounding
is not modelled — it cannot change the sign, `NaN`-ness or infinity of the
result, which is all the `repeat` range check observes, though for counts
within one rounding error of an integer the (astronomically long) rendered
hash run could differ from an engine's.  The `309 ≤ e` and `309 ≤ k` guards
are exact shortcuts (`10 ^ 309` exceeds the threshold, which is below
`10 ^ 309`). -/
def decToCount : DecNum → RepeatCount
  | .nan => .fin 0
  | .inf neg => if neg then .negInf else .posInf
  | .dec neg m e =>
    if m = 0 then .fin 0
    else if 0 ≤ e then
      if 309 ≤ e then (if neg then .negInf else .posInf)
      else
        let mag := m * 10 ^ e.toNat
        if overflowThreshold ≤ mag then (if neg then .negInf else .posInf)
        else .fin (if neg then -(mag : Int) else (mag : Int))
    else
      let k := (-e).toNat
      if m < overflowThreshold then
        if 309 ≤ k then .fin 0
        else
          let mag := m / 10 ^ k
          .fin (if neg then -(mag : Int) else (mag : Int))
      else if overflowThreshold * 10 ^ k ≤ m then
        (if neg then .negInf else .posInf)
      else
        let mag := m / 10 ^ k
        .fin (if neg then -(mag : Int) else (mag : Int))

/-- `ToIntegerOrInfinity (ToNumber s)` for a string: trim the ECMAScript
whitespace, parse the `StringNumericLiteral` grammar, truncate. -/
def strToCount (s : String) : RepeatCount :=
  decToCount (parseStrNumeric (jsTrim s).data)

/-- The count that `"#".repeat(v)` receives:
`ToIntegerOrInfinity (ToNumber v)`.  `null` and `false` give `0`, `true`
gives `1`, numbers pass through (they are exact integers in this model),
strings follow the `StringNumericLiteral` grammar, and a plain object
stringifies to `"[object Object]"`, which is `NaN`, hence `0`. -/
def jsToCount : JSVal → RepeatCount
  | .vNull => .fin 0
  | .vBool b => .fin (if b then 1 else 0)
  | .vNum n => .fin n
  | .vStr s => strToCount s
  | .vObj _ => .fin 0

/-- The range check of `String.prototype.repeat`: it throws a `RangeError`
when the coerced count is negative or `+Infinity` (`-Infinity` is
negative). -/
def countNegOrInf : RepeatCount → Bool
  | .fin n => decide (n < 0)
  | .posInf => true
  | .negInf => true

/-- The replicate count used once the range check has passed. -/
def countToNat : RepeatCount → Nat
  | .fin n => n.toNat
  | .posInf => 0
  | .negInf => 0

/-- A ProseMirror content node (`ProseMirrorNode` in the source).  The source
defaults absent `content`/`text`/`marks` to `[]`/`""`/`[]` before use, so the
model stores them already defaulted; `marks` keeps each mark's `type` string.
Of `attrs` only the `level` key is ever read, so the model keeps just that
(an arbitrary `JSVal`, since `attrs` is `Record<string, unknown>`). -/
inductive PMNode where
  | mk (ntype : String) (content : List PMNode) (text : String)
      (marks : List String) (level : Option JSVal)

/-- One step of the mark loop in the `text` branch of `processNode`:
recognized marks wrap the accumulated string, others leave it unchanged. -/
def applyMark (acc : String) (m : String) : String :=
  if m = "bold" then "**" ++ acc ++ "**"
  else if m = "italic" then "*" ++ acc ++ "*"
  else if m = "code" then "`" ++ acc ++ "`"
  else acc

/-- The repeat count of the `heading` branch:
`(node.attrs?.level as number) || 1` keeps a truthy `level` as-is and replaces
a falsy or absent one by `1`; `"#".repeat(...)` then coerces the kept value. -/
def headingLevel (level : Option JSVal) : RepeatCount :=
  jsToCount (match level with
    | some v => if jsTruthy v then v else .vNum 1
    | none => .vNum 1)

mutual

/-- `processNode` from `convertProseMirrorToMarkdown`.  A thrown exception is
`Except.error`; the only modelled throw site is `"#".repeat` with a negative
count (`RangeError`). -/
def processNode : PMNode → Except String String
  | .mk ntype content text marks level =>
    if ntype = "text" then
      .ok (marks.foldl applyMark text)
    else if ntype = "paragraph" then
      match processList content with
      | .error e => .error e
      | .ok rs =>
        let paraText := String.join rs
        .ok (if jsTrim paraText != "" then paraText ++ "\n\n" else "")
    else if ntype = "heading" then
      match processList content with
      | .error e => .error e
      | .ok rs =>
        let n := headingLevel level
        if countNegOrInf n then .error "RangeError: Invalid count value"
        else
          .ok (String.mk (List.replicate (countToNat n) '#') ++ " " ++
            String.join rs ++ "\n\n")
    else if ntype = "bulletList" then
      match processList content with
      | .error e => .error e
      | .ok rs => .ok (String.join rs)
    else if ntype = "listItem" then
      match processList content with
      | .error e => .error e
      | .ok rs => .ok ("- " ++ String.join rs)
    else if ntype = "orderedList" then
      match processList content with
      | .error e => .error e
      | .ok rs =>
        .ok (String.join (rs.enum.map (fun p =>
          if p.2 != "" then natToString (p.1 + 1) ++ ". " ++ p.2 else "")))
    else if ntype = "codeBlock" then
      match processList content with
      | .error e => .error e
      | .ok rs => .ok ("```\n" ++ String.join rs ++ "\n```\n\n")
    else if ntype = "hardBreak" then
      .ok "\n"
    else if content.length > 0 then
      match processList content with
      | .error e => .error e
      | .ok rs => .ok (String.join rs)
    else
      .ok ""

/-- `content.map(processNode)`, with an exception aborting the traversal. -/
def processList : List PMNode → Except String (List String)
  | [] => .ok []
  | n :: ns =>
    match processNode n with
    | .error e => .error e
    | .ok s =>
      match processList ns with
      | .error e => .error e
      | .ok rest => .ok (s :: rest)

end

/-- `convertProseMirrorToMarkdown`: a `null` tree renders to `""`. -/
def convertProseMirrorToMarkdown : Option PMNode → Except String String
  | none => .ok ""
  | some node => processNode node

mutual

/-- Every `heading` node in the tree has a level whose coerced repeat count
is a nonnegative finite integer (the condition under which `"#".repeat`
cannot throw its range error). -/
def goodNode : PMNode → Bool
  | .mk ntype content _ _ level =>
    (if ntype = "heading" then !countNegOrInf (headingLevel level)
      else true) &&
      goodList content

/-- `goodNode` on every element of a list. -/
def goodList : List PMNode → Bool
  | [] => true
  | n :: ns => goodNode n && goodList ns

end

/-- ASCII lowercasing of one character (JS `toLowerCase` restricted to the
ASCII range; other characters are kept unchanged). -/
def charToLower (c : Char) : Char :=
  if 65 ≤ c.toNat ∧ c.toNat ≤ 90 then Char.ofNat (c.toNat + 32) else c

/-- `String.prototype.toLowerCase`, modelled for ASCII. -/
def jsToLower (s : String) : String := String.mk (s.data.map charToLower)

/-- `String.prototype.includes`: `haystack.includes(needle)` is contiguous
substring containment. -/
def jsIncludes (haystack needle : String) : Bool :=
  decide (needle.data <:+: haystack.data)

/-- A Granola document (`GranolaDocument` in the source), restricted to the
fields the modelled operations read: `id`, `title`, `created_at`, the optional
pre-rendered `notes_markdown`, and `last_viewed_panel?.content` (flattened to
one optional tree, since the code only ever reads that one path). -/
structure GranolaDocument where
  id : String
  title : String
  created_at : String
  notes_markdown : Option String := none
  panelContent : Option PMNode := none

/-- Modelled from the spec (§6, §4.3): the remote `get-documents` endpoint,
whose code is not part of this repository, returns the first `limit` documents
of the service's listing order.  `getRecentDocuments(limit)` is therefore a
prefix of the full listing `allDocs`. -/
def listRecent (allDocs : List GranolaDocument) (limit : Nat) :
    List GranolaDocument :=
  allDocs.take limit

/-- The filter predicate of `searchDocuments` applied to one document, with
the query already lowercased. -/
def titleMatches (pattern : String) (doc : GranolaDocument) : Bool :=
  jsIncludes (jsToLower doc.title) pattern

/-- `searchDocuments`, after the fetch: lowercase the query once, then filter
by case-insensitive title containment.  The fetched list is a parameter. -/
def searchDocuments (documents : List GranolaDocument)
    (titlePattern : String) : List GranolaDocument :=
  let pattern := jsToLower titlePattern
  documents.filter (titleMatches pattern)

/-- The filter predicate of `findLatest1on1`: the lowercased title contains
the lowercased person name, and contains `"1:1"` or `"1x1"`. -/
def is1on1Match (personName : String) (doc : GranolaDocument) : Bool :=
  let nameLower := jsToLower personName
  let titleLower := jsToLower doc.title
  jsIncludes titleLower nameLower &&
    (jsIncludes titleLower "1:1" || jsIncludes titleLower "1x1")

/-- `findLatest1on1`, after the fetch.  `getTime` stands for
`s => new Date(s).getTime()` (an arbitrary integer-valued instant parse;
`NaN` is outside the model).  `Array.prototype.sort` with the comparator
`(a, b) => getTime(b) - getTime(a)` is a stable sort by descending time,
modelled by `List.insertionSort` with `a ≼ b ↔ getTime b ≤ getTime a`;
the source then returns the first element of the sorted matches. -/
def findLatest1on1 (getTime : String → Int)
    (documents : List GranolaDocument) (personName : String) :
    Option GranolaDocument :=
  let matching := documents.filter (is1on1Match personName)
  if matching.isEmpty then none
  else
    (matching.insertionSort
      (fun a b => getTime b.created_at ≤ getTime a.created_at)).head?

/-- A transcript segment (`TranscriptSegment` in the source). -/
structure TranscriptSegment where
  source : String
  text : String

/-- The JSON value the transcript endpoint can deliver, as seen by the
`!segments || !Array.isArray(segments) || segments.length === 0` test:
a falsy value (`null`), a non-array value, or an array of segments. -/
inductive TranscriptResult where
  | jsNull
  | notArray
  | segArray (segments : List TranscriptSegment)

/-- The per-segment formatter inside `getDocumentTranscript`: `microphone`
segments get a `**Me:** ` marker, `system` segments a `**System:** ` marker,
anything else is passed through. -/
def segmentLine (segment : TranscriptSegment) : String :=
  if segment.source = "microphone" then "**Me:** " ++ segment.text
  else if segment.source = "system" then "**System:** " ++ segment.text
  else segment.text

/-- `Array.prototype.join(sep)`: empty array gives `""`, otherwise elements
separated by `sep`. -/
def joinSep (sep : String) : List String → String
  | [] => ""
  | [a] => a
  | a :: rest => a ++ sep ++ joinSep sep rest

/-- The `segments.map(...).join("\n\n")` step of `getDocumentTranscript`. -/
def formatTranscript (segments : List TranscriptSegment) : String :=
  joinSep "\n\n" (segments.map segmentLine)

/-- `getDocumentTranscript`, with the outcome of the `makeRequest` call as
input (`Except.error` covers any transport or JSON-parse failure, which the
surrounding `try ... catch` turns into `null`). -/
def getDocumentTranscript (response : Except String TranscriptResult) :
    Option String :=
  match response with
  | .error _ => none
  | .ok .jsNull => none
  | .ok .notArray => none
  | .ok (.segArray segments) =>
    if segments.length = 0 then none
    else some (formatTranscript segments)

/-- Truthiness of the optional `notes_markdown` string (absent or `""` is
falsy). -/
def jsTruthyStr : Option String → Bool
  | none => false
  | some s => s != ""

/-- `getDocumentNotes`, with the full service listing as input: the code
fetches the `100` most recent documents, linearly scans them for the id,
then prefers truthy `notes_markdown`, then a rendered content tree, else
`null`.  A rendering exception is caught and becomes `null` (`toOption`). -/
def getDocumentNotes (allDocs : List GranolaDocument)
    (documentId : String) : Option String :=
  let documents := listRecent allDocs 100
  match documents.find? (fun d => d.id == documentId) with
  | none => none
  | some doc =>
    if jsTruthyStr doc.notes_markdown then doc.notes_markdown
    else
      match doc.panelContent with
      | some content => (convertProseMirrorToMarkdown (some content)).toOption
      | none => none

/-- The error taxonomy of the credential path, following §7 of the design:
`configError` is the missing-file throw, `authError` covers the two
missing-token-field throws, `parseError` is a `JSON.parse` `SyntaxError`, and
`typeError` is a property access on `null`. -/
inductive CredError where
  | configError
  | parseError
  | authError
  | typeError
deriving DecidableEq

/-- Outcome of `JSON.parse` on a string: a syntax error or a value. -/
inductive ParseOutcome where
  | malformed
  | parsed (v : JSVal)

/-- First binding of a key in an object literal's field list.  (`JSON.parse`
keeps the last duplicate key; the modelled configurations have no duplicate
keys, where the two agree.) -/
def lookupField (fields : List (String × JSVal)) (key : String) :
    Option JSVal :=
  (fields.find? (fun p => p.1 == key)).map (fun p => p.2)

/-- JavaScript property read `v[key]`: throws `TypeError` on `null`, yields
the field on an object, and `undefined` (here `none`) on other primitives. -/
def jsMember (v : JSVal) (key : String) :
    Except CredError (Option JSVal) :=
  match v with
  | .vNull => .error .typeError
  | .vObj fields => .ok (lookupField fields key)
  | _ => .ok none

/-- `JSON.parse(v)` for a non-string argument first converts it to a string:
numbers, booleans and `null` round-trip to themselves; an object stringifies
to `"[object Object]"`, which is a syntax error.  A string argument is parsed
by the ambient parser `parseJson`. -/
def jsonParseValue (parseJson : String → ParseOutcome) :
    JSVal → ParseOutcome
  | .vStr s => parseJson s
  | .vNum n => .parsed (.vNum n)
  | .vBool b => .parsed (.vBool b)
  | .vNull => .parsed .vNull
  | .vObj _ => .malformed

/-- `loadCredentials`, with the file system and `JSON.parse` as inputs:
`file` is the credential file's content (`none` when `fs.existsSync` is
false), `parseJson` models `JSON.parse` on strings.  Mirrors the source's
order: existence check, parse, truthiness of `config.workos_tokens`, second
parse, truthiness of `workosTokens.access_token`, return. -/
def loadCredentials (parseJson : String → ParseOutcome)
    (file : Option String) : Except CredError JSVal :=
  match file with
  | none => .error .configError
  | some configData =>
    match parseJson configData with
    | .malformed => .error .parseError
    | .parsed config =>
      match jsMember config "workos_tokens" with
      | .error e => .error e
      | .ok wt =>
        match wt with
        | none => .error .authError
        | some w =>
          if jsTruthy w = false then .error .authError
          else
            match jsonParseValue parseJson w with
            | .malformed => .error .parseError
            | .parsed workosTokens =>
              match jsMember workosTokens "access_token" with
              | .error e => .error e
              | .ok tok =>
                match tok with
                | none => .error .authError
                | some t =>
                  if jsTruthy t = false then .error .authError
                  else .ok t

/-- `getAccessToken`, with the memoized `this.accessToken` passed and
returned explicitly: a falsy cache (`null`, and in principle `""`) triggers
`loadCredentials`, whose result is stored and returned. -/
def getAccessToken (parseJson : String → ParseOutcome)
    (file : Option String) (cache : Option JSVal) :
    Except CredError (JSVal × Option JSVal) :=
  if jsTruthyOpt cache = false then
    match loadCredentials parseJson file with
    | .error e => .error e
    | .ok token => .ok (token, some token)
  else .ok (cache.getD .vNull, cache)

instance {ε α : Type} [DecidableEq ε] [DecidableEq α] :
    DecidableEq (Except ε α)
  | .error e, .error f =>
    if h : e = f then .isTrue (by rw [h]) else .isFalse (by simp [h])
  | .error _, .ok _ => .isFalse (by simp)
  | .ok _, .error _ => .isFalse (by simp)
  | .ok a, .ok b =>
    if h : a = b then .isTrue (by rw [h]) else .isFalse (by simp [h])

/-- Written from the spec's words for the `orderedList` row of §4.4: each
child is rendered individually; a non-empty render is preceded by its 1-based
positional index and `". "`; an empty render contributes nothing but still
consumes its index.  `i` is the number of children already consumed.  This is
the comparison target for the code's `enum`/`map`/`join` implementation. -/
def numberItems (i : Nat) : List String → String
  | [] => ""
  | r :: rest =>
    (if r ≠ "" then natToString (i + 1) ++ ". " ++ r else "") ++
      numberItems (i + 1) rest

/-- Sample document: a 1:1 with Sam, January. -/
def docSam1 : GranolaDocument :=
  { id := "a", title := "Sam 1:1", created_at := "2024-01-01" }

/-- Sample document: a 1x1 with Sam (odd capitalization), February. -/
def docSam2 : GranolaDocument :=
  { id := "b", title := "SAM 1x1 sync", created_at := "2024-02-01" }

/-- Sample document: not a 1:1. -/
def docSync : GranolaDocument :=
  { id := "c", title := "Weekly sync", created_at := "2024-03-01" }

/-- Sample document carrying pre-rendered notes. -/
def docNotes : GranolaDocument :=
  { id := "n", title := "Notes doc", created_at := "2024-01-05",
    notes_markdown := some "Hello notes" }

/-- A concrete instant parse for the sample documents. -/
def sampleTime : String → Int := fun s =>
  if s = "2024-02-01" then 2 else if s = "2024-01-01" then 1 else 0

/-- A heading whose `level` attribute has a malformed (string) type that is
truthy, so `|| 1` keeps it and `"#".repeat` coerces it to `NaN`, hence `0`. -/
def cexHeading : PMNode :=
  .mk "heading" [.mk "text" [] "T" [] none] "" [] (some (.vStr "abc"))

/-- The same heading with the `level` attribute absent. -/
def okHeading : PMNode :=
  .mk "heading" [.mk "text" [] "T" [] none] "" [] none

/-- A concrete `JSON.parse` oracle: `"cfg"`/`"inner"` form a credential file
whose `access_token` is the empty string; `"cfgW"`/`"innerW"` form one whose
`access_token` is `"token123"`; everything else is malformed. -/
def sampleParseJson : String → ParseOutcome := fun s =>
  if s = "cfg" then .parsed (.vObj [("workos_tokens", .vStr "inner")])
  else if s = "inner" then .parsed (.vObj [("access_token", .vStr "")])
  else if s = "cfgW" then .parsed (.vObj [("workos_tokens", .vStr "innerW")])
  else if s = "innerW" then .parsed (.vObj [("access_token", .vStr "token123")])
  else .malformed

/-! ## Theorems -/

/-- `jsIncludes` decides contiguous substring containment. -/
theorem jsIncludes_iff (haystack needle : String) :
    jsIncludes haystack needle = true ↔ needle.data <:+: haystack.data := by
  simp [jsIncludes]

/-- `List.foldl` of string append distributes over the initial accumulator. -/
theorem foldl_append_shift (l : List String) : ∀ a : String,
    List.foldl (fun r t => r ++ t) a l =
      a ++ List.foldl (fun r t => r ++ t) "" l := by
  induction l with
  | nil => intro a; simp
  | cons x xs ih =>
    intro a
    simp only [List.foldl]
    rw [ih (a ++ x), ih ("" ++ x), String.empty_append, String.append_assoc]

/-- `String.join` unfolds on a cons. -/
theorem stringJoin_cons (s : String) (l : List String) :
    String.join (s :: l) = s ++ String.join l := by
  have h1 : String.join (s :: l) = List.foldl (fun r t => r ++ t) ("" ++ s) l :=
    rfl
  rw [h1, foldl_append_shift, String.empty_append]
  rfl

/-- C5: `searchDocuments` returns exactly the documents whose title contains
the query case-insensitively: the result is a sublist of the input (hence in
input order), every returned document's lowercased title contains the
lowercased query as a contiguous substring, and no qualifying document is
omitted. -/
theorem c5_search_exact (documents : List GranolaDocument)
    (queryText : String) :
    List.Sublist (searchDocuments documents queryText) documents ∧
    (∀ d ∈ searchDocuments documents queryText,
      (jsToLower queryText).data <:+: (jsToLower d.title).data) ∧
    (∀ d ∈ documents,
      (jsToLower queryText).data <:+: (jsToLower d.title).data →
        d ∈ searchDocuments documents queryText) := by
  have hdef : searchDocuments documents queryText =
      documents.filter (titleMatches (jsToLower queryText)) := rfl
  refine ⟨hdef ▸ List.filter_sublist _, ?_, ?_⟩
  · intro d hd
    rw [hdef] at hd
    have h := (List.mem_filter.mp hd).2
    exact (jsIncludes_iff _ _).mp h
  · intro d hd hq
    rw [hdef]
    exact List.mem_filter.mpr ⟨hd, (jsIncludes_iff _ _).mpr hq⟩

/-- C5 witness: a qualifying document is returned, at a concrete input. -/
theorem c5_search_exact_witness :
    docSam1 ∈ searchDocuments [docSam1, docSync] "sam" :=
  (c5_search_exact [docSam1, docSync] "sam").2.2 docSam1 (by simp) (by decide)

/-- C10: searching with the empty query returns the whole input unchanged. -/
theorem c10_search_empty_query (documents : List GranolaDocument) :
    searchDocuments documents "" = documents := by
  have hdef : searchDocuments documents "" =
      documents.filter (titleMatches (jsToLower "")) := rfl
  rw [hdef]
  apply List.filter_eq_self.mpr
  intro d _
  show jsIncludes (jsToLower d.title) (jsToLower "") = true
  rw [jsIncludes_iff]
  have h0 : (jsToLower "").data = [] := rfl
  rw [h0]
  exact List.nil_infix

/-- C7: `getDocumentTranscript` never propagates a failure: any error from
the request maps to `none`, and the result is non-`null` exactly for a
non-empty segment array. -/
theorem c7_transcript_null_on_failure
    (response : Except String TranscriptResult) :
    (∀ e, response = .error e → getDocumentTranscript response = none) ∧
    ((∃ s, getDocumentTranscript response = some s) ↔
      ∃ segments, segments ≠ [] ∧ response = .ok (.segArray segments)) := by
  constructor
  · rintro e rfl
    rfl
  · cases response with
    | error e => simp [getDocumentTranscript]
    | ok r =>
      cases r with
      | jsNull => simp [getDocumentTranscript]
      | notArray => simp [getDocumentTranscript]
      | segArray segments =>
        cases segments with
        | nil => simp [getDocumentTranscript]
        | cons a t =>
          simp [getDocumentTranscript]

/-- C7 witness: a concrete failed request yields `null`. -/
theorem c7_transcript_null_on_failure_witness :
    getDocumentTranscript (.error "API error 500: boom") = none :=
  (c7_transcript_null_on_failure (.error "API error 500: boom")).1
    "API error 500: boom" rfl

/-- C8: a non-empty transcript formats as the segments in input order joined
by a blank line, with `**Me:** ` before `microphone` segments, `**System:** `
before `system` segments, and other segments unprefixed. -/
theorem c8_transcript_format (segment : TranscriptSegment)
    (segments : List TranscriptSegment) :
    getDocumentTranscript (.ok (.segArray (segment :: segments))) =
      some ((if segment.source = "microphone" then "**Me:** " ++ segment.text
        else if segment.source = "system" then "**System:** " ++ segment.text
        else segment.text) ++
        (match segments with
         | [] => ""
         | _ :: _ => "\n\n" ++ formatTranscript segments)) := by
  cases segments with
  | nil =>
    show some (formatTranscript [segment]) = _
    simp [formatTranscript, joinSep, segmentLine, String.append_empty]
  | cons b t =>
    show some (formatTranscript (segment :: b :: t)) = _
    simp [formatTranscript, joinSep, segmentLine, String.append_assoc]

/-- C4: marks on a text node are applied in mark-list order, each recognized
mark wrapping the prior result; with marks `[bold, italic]` the italic wraps
the bold result. -/
theorem c4_text_marks (s : String) (marks : List String) (m : String)
    (r : String) :
    (processNode (.mk "text" [] s marks none) = .ok r →
      processNode (.mk "text" [] s (marks ++ [m]) none) = .ok
        (if m = "bold" then "**" ++ r ++ "**"
         else if m = "italic" then "*" ++ r ++ "*"
         else if m = "code" then "`" ++ r ++ "`"
         else r)) ∧
    processNode (.mk "text" [] s ["bold", "italic"] none) =
      .ok ("*" ++ ("**" ++ s ++ "**") ++ "*") := by
  constructor
  · intro h
    have h1 : processNode (.mk "text" [] s marks none) =
        .ok (marks.foldl applyMark s) := rfl
    have hr : marks.foldl applyMark s = r := by
      have h2 := h1.symm.trans h
      injection h2
    have h3 : processNode (.mk "text" [] s (marks ++ [m]) none) =
        .ok ((marks ++ [m]).foldl applyMark s) := rfl
    rw [h3, List.foldl_append]
    simp only [List.foldl]
    rw [hr]
    rfl
  · rfl

/-- C4 witness: the general step at a concrete input. -/
theorem c4_text_marks_witness :
    processNode (.mk "text" [] "x" ([] ++ ["bold"]) none) = .ok
      (if "bold" = "bold" then "**" ++ "x" ++ "**"
       else if "bold" = "italic" then "*" ++ "x" ++ "*"
       else if "bold" = "code" then "`" ++ "x" ++ "`"
       else "x") :=
  (c4_text_marks "x" [] "bold" "x").1 rfl

/-- The code's enumerate-map-join pipeline for `orderedList` equals the
spec-side positional numbering, for any start index. -/
theorem join_enumFrom_numberItems (rs : List String) : ∀ i : Nat,
    String.join ((rs.enumFrom i).map (fun p =>
      if p.2 != "" then natToString (p.1 + 1) ++ ". " ++ p.2 else "")) =
      numberItems i rs := by
  induction rs with
  | nil => intro i; rfl
  | cons r rest ih =>
    intro i
    rw [List.enumFrom_cons, List.map_cons, stringJoin_cons, ih (i + 1)]
    by_cases hr : r = ""
    · simp [numberItems, hr]
    · simp [numberItems, hr]

/-- C3: an `orderedList` numbers each child by its 1-based position; children
rendering empty contribute nothing but still consume their index.  In
particular with three children whose second renders empty, the output is
`1. <first>` followed by `3. <third>`. -/
theorem c3_orderedList_numbering :
    (∀ (cs : List PMNode) (rs : List String), processList cs = .ok rs →
      processNode (.mk "orderedList" cs "" [] none) = .ok (numberItems 0 rs)) ∧
    (∀ c1 c2 c3 s1 s3, processNode c1 = .ok s1 → s1 ≠ "" →
      processNode c2 = .ok "" → processNode c3 = .ok s3 → s3 ≠ "" →
      processNode (.mk "orderedList" [c1, c2, c3] "" [] none) =
        .ok ("1. " ++ s1 ++ ("3. " ++ s3))) := by
  have main : ∀ (cs : List PMNode) (rs : List String),
      processList cs = .ok rs →
      processNode (.mk "orderedList" cs "" [] none) =
        .ok (numberItems 0 rs) := by
    intro cs rs h
    have hdef : processNode (.mk "orderedList" cs "" [] none) =
        match processList cs with
        | .error e => .error e
        | .ok rs => .ok (String.join (rs.enum.map (fun p =>
            if p.2 != "" then natToString (p.1 + 1) ++ ". " ++ p.2 else ""))) :=
      rfl
    rw [hdef, h]
    show Except.ok (String.join ((rs.enumFrom 0).map (fun p =>
        if p.2 != "" then natToString (p.1 + 1) ++ ". " ++ p.2 else ""))) =
      Except.ok (numberItems 0 rs)
    rw [join_enumFrom_numberItems rs 0]
  refine ⟨main, ?_⟩
  intro c1 c2 c3 s1 s3 h1 hs1 h2 h3 hs3
  have hl : processList [c1, c2, c3] = .ok [s1, "", s3] := by
    simp [processList, h1, h2, h3]
  have hres := main _ _ hl
  rw [hres]
  have f1 : natToString (0 + 1) ++ ". " = "1. " := by decide
  have f3 : natToString (2 + 1) ++ ". " = "3. " := by decide
  simp [numberItems, hs1, hs3, f1, f3]

/-- C3 witness: the general numbering statement at a concrete input. -/
theorem c3_orderedList_numbering_witness :
    processNode (.mk "orderedList" [.mk "text" [] "a" [] none] "" [] none) =
      .ok (numberItems 0 ["a"]) :=
  c3_orderedList_numbering.1 [.mk "text" [] "a" [] none] ["a"] rfl

/-- C6: `getDocumentNotes` scans only the (up to) 100 most-recently-listed
documents.  If no document in that window has the id, the result is `none`
(even when a matching document exists further back in `allDocs`); a found
document with truthy `notes_markdown` returns it verbatim; otherwise a
present content tree is rendered (a successful render is returned); with
neither, the result is `none`. -/
theorem c6_getNotes_spec (allDocs : List GranolaDocument)
    (documentId : String) :
    ((∀ d ∈ listRecent allDocs 100, d.id ≠ documentId) →
      getDocumentNotes allDocs documentId = none) ∧
    (∀ doc s,
      (listRecent allDocs 100).find? (fun d => d.id == documentId) =
        some doc →
      doc.notes_markdown = some s → s ≠ "" →
      getDocumentNotes allDocs documentId = some s) ∧
    (∀ doc tree s,
      (listRecent allDocs 100).find? (fun d => d.id == documentId) =
        some doc →
      jsTruthyStr doc.notes_markdown = false →
      doc.panelContent = some tree →
      processNode tree = .ok s →
      getDocumentNotes allDocs documentId = some s) ∧
    (∀ doc,
      (listRecent allDocs 100).find? (fun d => d.id == documentId) =
        some doc →
      jsTruthyStr doc.notes_markdown = false →
      doc.panelContent = none →
      getDocumentNotes allDocs documentId = none) := by
  refine ⟨?_, ?_, ?_, ?_⟩
  · intro h
    have hfind : (listRecent allDocs 100).find?
        (fun d => d.id == documentId) = none :=
      List.find?_eq_none.mpr (fun x hx => by simpa using h x hx)
    simp [getDocumentNotes, hfind]
  · intro doc s hfind hnotes hs
    simp [getDocumentNotes, hfind, jsTruthyStr, hnotes, hs]
  · intro doc tree s hfind hfalse htree hrender
    simp [getDocumentNotes, hfind, hfalse, htree,
      convertProseMirrorToMarkdown, hrender, Except.toOption]
  · intro doc hfind hfalse hnone
    simp [getDocumentNotes, hfind, hfalse, hnone]

/-- C6 witness: verbatim notes returned at a concrete input. -/
theorem c6_getNotes_spec_witness :
    getDocumentNotes [docNotes] "n" = some "Hello notes" :=
  (c6_getNotes_spec [docNotes] "n").2.1 docNotes "Hello notes" rfl rfl
    (by decide)

/-- The code's filter predicate for the 1:1 finder, as a proposition: the
lowercased title contains the lowercased person name and contains `"1:1"` or
`"1x1"`. -/
theorem is1on1Match_iff (personName : String) (d : GranolaDocument) :
    is1on1Match personName d = true ↔
      ((jsToLower personName).data <:+: (jsToLower d.title).data ∧
        ("1:1".data <:+: (jsToLower d.title).data ∨
          "1x1".data <:+: (jsToLower d.title).data)) := by
  simp [is1on1Match, jsIncludes]

/-- C1: `findLatest1on1` returns a document only if its title
case-insensitively contains the person name and one of the `1:1`/`1x1`
markers; any returned document has the greatest parsed `created_at` among
the qualifying documents; and the result is `null` exactly when no document
qualifies. -/
theorem c1_findLatest1on1_spec (getTime : String → Int)
    (documents : List GranolaDocument) (personName : String) :
    (∀ d, findLatest1on1 getTime documents personName = some d →
      d ∈ documents ∧
      (jsToLower personName).data <:+: (jsToLower d.title).data ∧
      ("1:1".data <:+: (jsToLower d.title).data ∨
        "1x1".data <:+: (jsToLower d.title).data) ∧
      ∀ e ∈ documents,
        (jsToLower personName).data <:+: (jsToLower e.title).data →
        ("1:1".data <:+: (jsToLower e.title).data ∨
          "1x1".data <:+: (jsToLower e.title).data) →
        getTime e.created_at ≤ getTime d.created_at) ∧
    (findLatest1on1 getTime documents personName = none ↔
      ∀ d ∈ documents, is1on1Match personName d = false) := by
  have hr : ∀ a b : GranolaDocument,
      (fun a b : GranolaDocument =>
        getTime b.created_at ≤ getTime a.created_at) a b ↔
      getTime b.created_at ≤ getTime a.created_at := fun a b => Iff.rfl
  set r : GranolaDocument → GranolaDocument → Prop :=
    fun a b => getTime b.created_at ≤ getTime a.created_at with hrdef
  haveI : IsTotal GranolaDocument r :=
    ⟨fun a b => le_total (getTime b.created_at) (getTime a.created_at)⟩
  haveI : IsTrans GranolaDocument r :=
    ⟨fun _ _ _ hab hbc => le_trans hbc hab⟩
  set matching := documents.filter (is1on1Match personName) with hmdef
  have hdef : findLatest1on1 getTime documents personName =
      if matching.isEmpty then none
      else (matching.insertionSort r).head? := rfl
  have hperm : List.Perm (matching.insertionSort r) matching :=
    List.perm_insertionSort r matching
  have hsorted : List.Sorted r (matching.insertionSort r) :=
    List.sorted_insertionSort r matching
  constructor
  · intro d hd
    rw [hdef] at hd
    by_cases hm : matching.isEmpty
    · rw [if_pos hm] at hd
      cases hd
    · rw [if_neg hm] at hd
      cases hs : matching.insertionSort r with
      | nil =>
        rw [hs] at hd
        cases hd
      | cons d0 rest =>
        rw [hs] at hd
        have hd0 : d0 = d := by
          simpa [List.head?] using hd
        subst hd0
        have hdmem : d0 ∈ matching := hperm.mem_iff.mp (hs ▸ List.mem_cons_self d0 rest)
        have hdml := List.mem_filter.mp hdmem
        have hcond := (is1on1Match_iff personName d0).mp hdml.2
        refine ⟨hdml.1, hcond.1, hcond.2, ?_⟩
        intro e he hen hem
        have hematch : is1on1Match personName e = true :=
          (is1on1Match_iff personName e).mpr ⟨hen, hem⟩
        have hemem : e ∈ matching := List.mem_filter.mpr ⟨he, hematch⟩
        have hesort : e ∈ d0 :: rest := hs ▸ hperm.mem_iff.mpr hemem
        rcases List.mem_cons.mp hesort with h1 | h2
        · subst h1; exact le_refl _
        · have hpair := (List.sorted_cons.mp (hs ▸ hsorted)).1
          exact hpair e h2
  · rw [hdef]
    constructor
    · intro hnone
      by_cases hm : matching.isEmpty
      · have : matching = [] := by simpa [List.isEmpty_iff] using hm
        intro d hdmem
        by_contra hmatch
        have : d ∈ matching := List.mem_filter.mpr
          ⟨hdmem, by simpa using hmatch⟩
        simp_all
      · rw [if_neg hm] at hnone
        have hlen : (matching.insertionSort r).length = matching.length :=
          hperm.length_eq
        cases hs : matching.insertionSort r with
        | nil =>
          rw [hs] at hlen
          have : matching = [] := List.length_eq_zero.mp hlen.symm
          simp [this, List.isEmpty_iff] at hm
        | cons d0 rest =>
          rw [hs] at hnone
          simp [List.head?] at hnone
    · intro h
      have hnil : matching = [] :=
        List.filter_eq_nil_iff.mpr (fun a ha => by simp [h a ha])
      rw [if_pos (by simp [hnil])]

/-- C1 witness: at a concrete input, the returned February 1:1 dominates the
January 1:1 in parsed time. -/
theorem c1_findLatest1on1_spec_witness :
    sampleTime docSam1.created_at ≤ sampleTime docSam2.created_at :=
  ((c1_findLatest1on1_spec sampleTime [docSam1, docSam2, docSync]
    "Sam").1 docSam2 rfl).2.2.2 docSam1 (by simp) (by decide) (by decide)

/-- An `Except` value is `isOk` exactly when it is an `ok`. -/
theorem except_isOk_iff {e a : Type} (x : Except e a) :
    x.isOk = true ↔ ∃ v, x = .ok v := by
  cases x <;> simp [Except.isOk, Except.toBool]

mutual

/-- Renderer totality: on a tree whose heading levels all coerce to
nonnegative counts, `processNode` cannot throw. -/
theorem processNode_isOk_of_good : ∀ t : PMNode, goodNode t = true →
    (processNode t).isOk = true
  | .mk ntype content text marks level, h => by
    have hsplit : (if ntype = "heading" then
        !countNegOrInf (headingLevel level) else true) = true ∧
        goodList content = true := by
      have hh : goodNode (.mk ntype content text marks level) =
          ((if ntype = "heading" then
            !countNegOrInf (headingLevel level) else true) &&
            goodList content) := rfl
      rw [hh] at h
      exact Bool.and_eq_true_iff.mp h
    have hok := processList_isOk_of_good content hsplit.2
    obtain ⟨rs, hrs⟩ := (except_isOk_iff _).mp hok
    by_cases h1 : ntype = "text"
    · simp [processNode, h1, Except.isOk, Except.toBool]
    · by_cases h2 : ntype = "paragraph"
      · simp [processNode, h1, h2, hrs, Except.isOk, Except.toBool]
      · by_cases h3 : ntype = "heading"
        · have hlev : countNegOrInf (headingLevel level) = false := by
            have := hsplit.1
            rw [if_pos h3] at this
            simpa using this
          simp [processNode, h1, h2, h3, hrs, hlev, Except.isOk, Except.toBool]
        · by_cases h4 : ntype = "bulletList"
          · simp [processNode, h1, h2, h3, h4, hrs, Except.isOk, Except.toBool]
          · by_cases h5 : ntype = "listItem"
            · simp [processNode, h1, h2, h3, h4, h5, hrs, Except.isOk, Except.toBool]
            · by_cases h6 : ntype = "orderedList"
              · simp [processNode, h1, h2, h3, h4, h5, h6, hrs, Except.isOk, Except.toBool]
              · by_cases h7 : ntype = "codeBlock"
                · simp [processNode, h1, h2, h3, h4, h5, h6, h7, hrs,
                    Except.isOk, Except.toBool]
                · by_cases h8 : ntype = "hardBreak"
                  · simp [processNode, h1, h2, h3, h4, h5, h6, h7, h8,
                      Except.isOk, Except.toBool]
                  · by_cases h9 : content.length > 0
                    · simp [processNode, h1, h2, h3, h4, h5, h6, h7, h8, h9,
                        hrs, Except.isOk, Except.toBool]
                    · simp [processNode, h1, h2, h3, h4, h5, h6, h7, h8, h9,
                        Except.isOk, Except.toBool]

/-- List version of renderer totality. -/
theorem processList_isOk_of_good : ∀ l : List PMNode, goodList l = true →
    (processList l).isOk = true
  | [], _ => rfl
  | n :: ns, h => by
    have hsplit : goodNode n = true ∧ goodList ns = true := by
      have hh : goodList (n :: ns) = (goodNode n && goodList ns) := rfl
      rw [hh] at h
      exact Bool.and_eq_true_iff.mp h
    have h1 := processNode_isOk_of_good n hsplit.1
    have h2 := processList_isOk_of_good ns hsplit.2
    obtain ⟨s, hs⟩ := (except_isOk_iff _).mp h1
    obtain ⟨rest, hrest⟩ := (except_isOk_iff _).mp h2
    simp [processList, hs, hrest, Except.isOk, Except.toBool]

end

/-- C2 (amended): on any tree whose heading `level` attributes all coerce to
a nonnegative finite repeat count — in particular whenever they are absent,
falsy, or nonnegative finite numbers — the renderer terminates and returns a
string without throwing; and a heading with no `level` attribute renders
exactly as one with `level = 1` (the stated default).  A level coercing to a
negative number (such as the string `"-1"`) or to `+Infinity` fails
`goodNode` and does make `"#".repeat` throw its `RangeError`. -/
theorem c2_render_total_amended :
    (∀ t : PMNode, goodNode t = true → ∃ s, processNode t = .ok s) ∧
    (∀ (content : List PMNode) (text : String) (marks : List String),
      processNode (.mk "heading" content text marks none) =
        processNode (.mk "heading" content text marks (some (.vNum 1)))) := by
  constructor
  · intro t h
    exact (except_isOk_iff _).mp (processNode_isOk_of_good t h)
  · intro content text marks
    rfl

/-- C2 counterexample: a heading whose `level` attribute has a malformed
(string) type renders with zero `#` characters, not with the stated default
level 1 — `(level as number) || 1` keeps any truthy value, and
`"#".repeat("abc")` coerces it to `NaN`, i.e. count `0`. -/
theorem c2_malformed_level_counterexample :
    processNode cexHeading = .ok " T\n\n" ∧
    processNode okHeading = .ok "# T\n\n" ∧
    (" T\n\n" : String) ≠ "# T\n\n" :=
  ⟨by decide, by decide, by decide⟩

/-- C2 witness: the amended totality statement at a concrete tree. -/
theorem c2_render_total_amended_witness :
    ∃ s, processNode okHeading = .ok s :=
  c2_render_total_amended.1 okHeading (by decide)

/-- A successful `loadCredentials` needs an existing file and always returns
a truthy token (the final `!workosTokens.access_token` guard). -/
theorem loadCredentials_ok_truthy (parseJson : String → ParseOutcome)
    (file : Option String) (tok : JSVal)
    (h : loadCredentials parseJson file = .ok tok) :
    file ≠ none ∧ jsTruthy tok = true := by
  unfold loadCredentials at h
  split at h
  · simp at h
  · refine ⟨by simp, ?_⟩
    split at h
    · simp at h
    · split at h
      · simp at h
      · split at h
        · simp at h
        · split at h
          · simp at h
          · split at h
            · simp at h
            · split at h
              · simp at h
              · split at h
                · simp at h
                · split at h
                  · simp at h
                  · rename_i ht
                    injection h with he
                    subst he
                    simpa using ht

/-- C9 (amended): the first `getAccessToken` call fails with the
configuration error when the file is missing; fails with the authentication
error when the outer `workos_tokens` field is missing, or when the inner
`access_token` field is missing; succeeds returning the `access_token` only
when the file exists and the token it eventually yields is truthy — so both
fields must be present *with truthy values*, not merely present. -/
theorem c9_credentials_spec (parseJson : String → ParseOutcome)
    (file : Option String) :
    (file = none →
      getAccessToken parseJson file none = .error .configError) ∧
    (∀ c fields, file = some c →
      parseJson c = .parsed (.vObj fields) →
      lookupField fields "workos_tokens" = none →
      getAccessToken parseJson file none = .error .authError) ∧
    (∀ c fields s fields2, file = some c →
      parseJson c = .parsed (.vObj fields) →
      lookupField fields "workos_tokens" = some (.vStr s) → s ≠ "" →
      parseJson s = .parsed (.vObj fields2) →
      lookupField fields2 "access_token" = none →
      getAccessToken parseJson file none = .error .authError) ∧
    (∀ c fields s fields2 t, file = some c →
      parseJson c = .parsed (.vObj fields) →
      lookupField fields "workos_tokens" = some (.vStr s) → s ≠ "" →
      parseJson s = .parsed (.vObj fields2) →
      lookupField fields2 "access_token" = some t → jsTruthy t = true →
      getAccessToken parseJson file none = .ok (t, some t)) ∧
    (∀ t st, getAccessToken parseJson file none = .ok (t, st) →
      file ≠ none ∧ jsTruthy t = true ∧ st = some t) := by
  refine ⟨?_, ?_, ?_, ?_, ?_⟩
  · rintro rfl
    rfl
  · rintro c fields rfl hp hlk
    simp [getAccessToken, jsTruthyOpt, loadCredentials, hp, jsMember, hlk]
  · rintro c fields str fields2 rfl hp hlk hs hp2 hlk2
    simp [getAccessToken, jsTruthyOpt, loadCredentials, hp, jsMember, hlk,
      jsTruthy, hs, jsonParseValue, hp2, hlk2]
  · rintro c fields str fields2 t rfl hp hlk hs hp2 hlk2 htr
    have hw : jsTruthy (.vStr str) = true := by simp [jsTruthy, hs]
    simp [getAccessToken, jsTruthyOpt, loadCredentials, hp, jsMember, hlk,
      hw, jsonParseValue, hp2, hlk2, htr]
  · intro t st h
    simp only [getAccessToken, jsTruthyOpt] at h
    cases hl : loadCredentials parseJson file with
    | error e =>
      rw [hl] at h
      simp at h
    | ok tok =>
      rw [hl] at h
      simp at h
      have hgood := loadCredentials_ok_truthy parseJson file tok hl
      rcases h with ⟨rfl, rfl⟩
      exact ⟨hgood.1, hgood.2, rfl⟩

/-- C9 counterexample: a credential file that exists, parses, and has both
the outer `workos_tokens` field and the inner `access_token` field present —
but with `access_token = ""` — makes the first call fail with the
authentication error instead of succeeding, refuting "succeeds exactly when
the file exists and both fields are present". -/
theorem c9_present_but_empty_counterexample :
    sampleParseJson "cfg" = .parsed (.vObj [("workos_tokens", .vStr "inner")]) ∧
    sampleParseJson "inner" = .parsed (.vObj [("access_token", .vStr "")]) ∧
    getAccessToken sampleParseJson (some "cfg") none = .error .authError :=
  ⟨rfl, rfl, rfl⟩

/-- C9 witness: the success clause at a concrete well-formed credential
file. -/
theorem c9_credentials_spec_witness :
    getAccessToken sampleParseJson (some "cfgW") none =
      .ok (.vStr "token123", some (.vStr "token123")) :=
  (c9_credentials_spec sampleParseJson (some "cfgW")).2.2.2.1 "cfgW"
    [("workos_tokens", .vStr "innerW")] "innerW"
    [("access_token", .vStr "token123")] (.vStr "token123")
    rfl rfl rfl (by decide) rfl rfl rfl

end Granola
